import Mathlib

set_option maxRecDepth 100000

/-!
Shallow embedding of `src/preprocessing/gather_data.py` (class `YouTubeDataFetcher`).

The upstream YouTube Data API client (`googleapiclient`) is an external
collaborator; it is modelled by explicit environments that script the
responses of each remote call.  A call that raises an exception in Python is
modelled by an `Except.error` response.  Python dictionaries built from API
JSON are modelled by structures carrying exactly the fields the code reads.
-/

namespace GatherData

/-- Hardcoded category table `self.category_ids` (constructor, lines 21-36). -/
def category_ids : List (String × Nat) :=
  [("film_animation", 1), ("autos", 2), ("music", 10), ("pets_animals", 15),
   ("sports", 17), ("gaming", 20), ("blogging", 22), ("comedy", 23),
   ("entertainment", 24), ("news_politics", 25), ("howto_style", 26),
   ("education", 27), ("science_tech", 28), ("nonprofits", 29)]

/-- Python `self.category_ids.get(name)`: first (only) binding of `name`. -/
def categoryLookup (name : String) : Option Nat :=
  (category_ids.find? (fun p => p.1 = name)).map (fun p => p.2)

/-- Python `str` applied to the result of `.get`: `str(None)` is the string
"None", `str(n)` is the decimal representation of `n`. -/
def pyStrOfOptNat : Option Nat → String
  | none => "None"
  | some n => toString n

/-- Reverse mapping `category_names = \x7bstr(v): k ...\x7d` with the
`.get(key, 'Unknown')` default (lines 133-134 and 198).  Values in
`category_ids` are distinct, so first-match lookup agrees with the dict. -/
def categoryNameLookup (idStr : String) : String :=
  ((category_ids.find? (fun p => toString p.2 = idStr)).map (fun p => p.1)).getD "Unknown"

/-- Python truthiness of the `category` argument (`if category`): `None` and
the empty string are falsy. -/
def pyTruthyOptStr : Option String → Bool
  | none => false
  | some s => !s.isEmpty

/-- Python truthiness of `next_page_token` in `if not next_page_token`
(line 208): `None` and the empty string are falsy. -/
def tokenFalsy : Option String → Bool
  | none => true
  | some s => s.isEmpty

/-- Item of a `search().list` response page (fields read at lines 153 and
186-190). -/
structure SearchItem where
  videoId : String
  title : String
  description : String
  publishedAt : String
  thumbnailUrl : String
deriving Repr, DecidableEq

/-- Item of a `videos().list` response (fields read at lines 164-201).  The
numeric statistics are already the `int(...)`-converted values with the
`.get(..., 0)` defaults applied. -/
structure VideoInfo where
  categoryId : String
  duration : String
  viewCount : Nat
  likeCount : Nat
  commentCount : Nat
  tags : List String
  defaultLanguage : String
  defaultAudioLanguage : String
deriving Repr, DecidableEq

/-- One page returned by the channel-video search (lines 139-149 and 207). -/
structure SearchPage where
  items : List SearchItem
  nextPageToken : Option String
deriving Repr, DecidableEq

/-- Mocked upstream API for `fetch_channel_videos`.  `searchResponses` is the
sequence of responses the paged `search().list` call produces, in call order;
the other fields script the secondary per-item calls, keyed by the id they
are invoked with.  `Except.error` models a raised exception. -/
structure ApiEnv where
  searchResponses : List (Except String SearchPage)
  videosList : String → Except String (List VideoInfo)
  commentThreads : String → Except String Unit
  channelStats : String → Except String Nat

/-- Flat record appended to `video_details` (lines 185-202). -/
structure VideoRecord where
  video_id : String
  title : String
  description : String
  published_at : String
  thumbnail_url : String
  views : Nat
  likes : Nat
  comments_count : Nat
  current_subscriber_count : Nat
  duration_seconds : Int
  comments_enabled : Bool
  category_id : String
  category_name : String
  tags : List String
  default_language : String
  default_audio_language : String
deriving Repr, DecidableEq

/-! ## Duration parsing (`_parse_duration`, lines 216-229)

`isodate.parse_duration` first matches its period regex

  `^[+-]?P(?!\\b)(nY)?(nM)?(nW)?(nD)?(T(nH)?(nM)?(nS)?)?$`

where each `n` is `[0-9]+([,.][0-9]+)?`, and builds a `timedelta` (or, when
years or months are present, a `Duration` whose `total_seconds` delegates to
its `timedelta` part, so years and months contribute nothing).  A leading
`-` negates the result.  When the regex fails and the string starts with
`P`, the library tries its documented alternative duration format: a
complete datetime, date `YYYY-MM-DD`/`YYYYMMDD` and time
`hh:mm:ss`/`hhmmss` (optional fraction and time-zone designator) joined by
one `T`; the value again comes from the day-of-month and time fields.  Any
other string raises, and the repository method returns 0.

Numeric resolution of the model: fractional values are exact decimals,
rounded half-to-even at microsecond resolution as `timedelta` does, and the
final `int(...total_seconds())` truncates toward zero; totals beyond the
`timedelta` day range raise in the library and are parse failures here.
The double-precision detours the library takes (float literals,
`total_seconds`) and the undocumented reduced-accuracy, week and ordinal
date forms of the general datetime fallback are below this model's
resolution and outside its scope. -/

/-- Split a leading run of decimal digits off a character list. -/
def takeDigits : List Char → List Char × List Char
  | [] => ([], [])
  | c :: cs =>
    if c.isDigit then
      let p := takeDigits cs
      (c :: p.1, p.2)
    else ([], c :: cs)

/-- Decimal value of a digit list. -/
def digitsVal (ds : List Char) : Nat :=
  ds.foldl (fun a c => a * 10 + (c.toNat - 48)) 0

/-- Word character, for the lookahead `P(?!\\b)` of the period regex. -/
def isWordChar (c : Char) : Bool :=
  c.isAlphanum || c = '_'

/-- One numeric component value `[0-9]+([,.][0-9]+)?` as an exact decimal:
`num / den` with `den` the power of ten of the fraction length. -/
structure DecNum where
  num : Nat
  den : Nat
deriving Repr, DecidableEq

/-- Read one numeric component: a nonempty digit run with an optional
fraction (dot or comma, nonempty digits).  An incomplete fraction is left
unconsumed, as regex backtracking would. -/
def readDecNum (cs : List Char) : Option (DecNum × List Char) :=
  match takeDigits cs with
  | ([], _) => none
  | (ds, rest) =>
    match rest with
    | sep :: r2 =>
      if sep = '.' ∨ sep = ',' then
        match takeDigits r2 with
        | ([], _) => some (⟨digitsVal ds, 1⟩, rest)
        | (fs, r3) => some (⟨digitsVal (ds ++ fs), 10 ^ fs.length⟩, r3)
      else some (⟨digitsVal ds, 1⟩, rest)
    | [] => some (⟨digitsVal ds, 1⟩, [])

/-- Tail of the unit list after the first occurrence of `u`, or `none` when
`u` is not an allowed unit. -/
def dropThroughUnit (u : Char) : List Char → Option (List Char)
  | [] => none
  | c :: cs => if c = u then some cs else dropThroughUnit u cs

/-- Component run of one regex section: digit groups each followed by a
unit letter drawn in order from `allowed`, stopping at the first non-digit.
The fuel is the length of the unit list; each step consumes a unit. -/
def readUnitComps : Nat → List Char → List Char →
    Option (List (Char × DecNum) × List Char)
  | _, _, [] => some ([], [])
  | 0, _, c :: cs => if c.isDigit then none else some ([], c :: cs)
  | fuel + 1, allowed, c :: cs =>
    if c.isDigit then
      match readDecNum (c :: cs) with
      | none => none
      | some (v, r) =>
        match r with
        | [] => none
        | u :: r2 =>
          match dropThroughUnit u allowed with
          | none => none
          | some allowed2 =>
            match readUnitComps fuel allowed2 r2 with
            | none => none
            | some (comps, rest) => some ((u, v) :: comps, rest)
    else some ([], c :: cs)

/-- Value of the component with unit `u`, defaulting to 0. -/
def compVal (u : Char) (comps : List (Char × DecNum)) : DecNum :=
  (((comps.find? (fun p => p.1 = u)).map (fun p => p.2)).getD ⟨0, 1⟩)

/-- Exact microsecond total of the period components as a fraction
`num / den`.  Years and months are excluded: a `Duration` delegates
`total_seconds` to its `timedelta` part. -/
def periodMicroseconds (dcomps tcomps : List (Char × DecNum)) : Nat × Nat :=
  let w := compVal 'W' dcomps
  let d := compVal 'D' dcomps
  let h := compVal 'H' tcomps
  let m := compVal 'M' tcomps
  let s := compVal 'S' tcomps
  let den := w.den * d.den * h.den * m.den * s.den
  (w.num * 604800000000 * (den / w.den) +
   d.num * 86400000000 * (den / d.den) +
   h.num * 3600000000 * (den / h.den) +
   m.num * 60000000 * (den / m.den) +
   s.num * 1000000 * (den / s.den), den)

/-- Rounding half to even, as `timedelta` rounds fractional microseconds. -/
def roundHalfEven (n d : Nat) : Nat :=
  let q := n / d
  let r := n % d
  if 2 * r < d then q
  else if d < 2 * r then q + 1
  else if q % 2 = 0 then q else q + 1

/-- Signed integer seconds of a parsed period: round to microseconds,
check the `timedelta` day range (beyond it the library raises), truncate
toward zero and apply the sign. -/
def periodValue (sign : Int) (dcomps tcomps : List (Char × DecNum)) : Option Int :=
  let nd := periodMicroseconds dcomps tcomps
  let usec := roundHalfEven nd.1 nd.2
  if sign < 0 then
    if usec ≤ 999999999 * 86400000000 then some (-((usec / 1000000 : Nat) : Int))
    else none
  else
    if usec < 1000000000 * 86400000000 then some ((usec / 1000000 : Nat) : Int)
    else none

/-- Body of a period match after `P`: date components Y, M, W, D in order,
then an optional time section `T` with H, M, S in order, nothing trailing. -/
def parsePeriodBody (sign : Int) (cs : List Char) : Option Int :=
  match readUnitComps 4 ['Y', 'M', 'W', 'D'] cs with
  | none => none
  | some (dcomps, r1) =>
    match r1 with
    | [] => periodValue sign dcomps []
    | 'T' :: r2 =>
      (match readUnitComps 3 ['H', 'M', 'S'] r2 with
       | none => none
       | some (tcomps, r3) =>
         if r3.isEmpty then periodValue sign dcomps tcomps else none)
    | _ => none

/-- Period regex match: optional sign, `P`, the `(?!\\b)` lookahead (the
next character must exist and be a word character), then the components. -/
def parsePeriod (cs : List Char) : Option Int :=
  let sp : Int × List Char :=
    match cs with
    | '+' :: r => (1, r)
    | '-' :: r => (-1, r)
    | r => (1, r)
  match sp.2 with
  | 'P' :: c :: rest =>
    if isWordChar c then parsePeriodBody sp.1 (c :: rest) else none
  | _ => none

/-- Split at the unique `T` of a datetime string; two or zero `T`s make
`split` raise in the library. -/
def splitOnceT : List Char → Option (List Char × List Char)
  | [] => none
  | 'T' :: rest => if rest.contains 'T' then none else some ([], rest)
  | c :: rest => (splitOnceT rest).map (fun p => (c :: p.1, p.2))

/-- Read exactly `n` decimal digits. -/
def readNDigits : Nat → List Char → Option (Nat × List Char)
  | 0, cs => some (0, cs)
  | _ + 1, [] => none
  | n + 1, c :: cs =>
    if c.isDigit then
      (readNDigits n cs).map (fun p => ((c.toNat - 48) * 10 ^ n + p.1, p.2))
    else none

/-- Gregorian leap year, as `datetime.date` validates days. -/
def isLeapYear (y : Nat) : Bool :=
  y % 4 = 0 && (y % 100 ≠ 0 || y % 400 = 0)

/-- Length of a month, as `datetime.date` validates days. -/
def daysInMonth (y mo : Nat) : Nat :=
  if mo = 2 then (if isLeapYear y then 29 else 28)
  else if mo = 4 ∨ mo = 6 ∨ mo = 9 ∨ mo = 11 then 30
  else 31

/-- Complete calendar date `YYYY-MM-DD` or `YYYYMMDD`, validated as
`datetime.date` does (year 0000 is out of range). -/
def parseCompleteDate (cs : List Char) : Option (Nat × Nat × Nat) :=
  let parsed : Option (Nat × Nat × Nat) :=
    match readNDigits 4 cs with
    | none => none
    | some (y, r1) =>
      match r1 with
      | '-' :: r2 =>
        (match readNDigits 2 r2 with
         | some (mo, '-' :: r3) =>
           (match readNDigits 2 r3 with
            | some (d, []) => some (y, mo, d)
            | _ => none)
         | _ => none)
      | _ =>
        (match readNDigits 2 r1 with
         | some (mo, r2) =>
           (match readNDigits 2 r2 with
            | some (d, []) => some (y, mo, d)
            | _ => none)
         | _ => none)
  match parsed with
  | some (y, mo, d) =>
    if 1 ≤ y ∧ 1 ≤ mo ∧ mo ≤ 12 ∧ 1 ≤ d ∧ d ≤ daysInMonth y mo then parsed
    else none
  | none => none

/-- Optional time-zone designator: `Z` or a sign with `hh`, `hh:mm` or
`hhmm`, consumed to the end of the input. -/
def parseTzSuffix : List Char → Bool
  | [] => true
  | ['Z'] => true
  | c :: rest =>
    if c = '+' ∨ c = '-' then
      match readNDigits 2 rest with
      | some (_, []) => true
      | some (_, ':' :: r2) =>
        (match readNDigits 2 r2 with
         | some (_, []) => true
         | _ => false)
      | some (_, r2) =>
        (match readNDigits 2 r2 with
         | some (_, []) => true
         | _ => false)
      | none => false
    else false

/-- Optional fraction (dot or comma, nonempty digits) on the seconds,
followed by the optional time zone. -/
def parseFracTz (cs : List Char) : Bool :=
  match cs with
  | [] => true
  | sep :: rest =>
    if sep = '.' ∨ sep = ',' then
      match takeDigits rest with
      | ([], _) => false
      | (_, r2) => parseTzSuffix r2
    else parseTzSuffix (sep :: rest)

/-- Complete time `hh:mm:ss` or `hhmmss` with optional fraction and time
zone, validated as `datetime.time` does; the fraction never reaches the
truncated integer seconds. -/
def parseCompleteTime (cs : List Char) : Option (Nat × Nat × Nat) :=
  let parsed : Option (Nat × Nat × Nat) :=
    match readNDigits 2 cs with
    | none => none
    | some (h, r1) =>
      match r1 with
      | ':' :: r2 =>
        (match readNDigits 2 r2 with
         | some (mi, ':' :: r3) =>
           (match readNDigits 2 r3 with
            | some (s, r4) => if parseFracTz r4 then some (h, mi, s) else none
            | _ => none)
         | _ => none)
      | _ =>
        (match readNDigits 2 r1 with
         | some (mi, r2) =>
           (match readNDigits 2 r2 with
            | some (s, r3) => if parseFracTz r3 then some (h, mi, s) else none
            | _ => none)
         | _ => none)
  match parsed with
  | some (h, mi, s) =>
    if h ≤ 23 ∧ mi ≤ 59 ∧ s ≤ 59 then parsed else none
  | none => none

/-- Alternative duration format: a complete datetime after the leading `P`.
The library builds a `Duration` from the datetime fields, whose
`total_seconds` sees only the day-of-month and time fields. -/
def parseAltDatetime (cs : List Char) : Option Int :=
  match splitOnceT cs with
  | none => none
  | some (dcs, tcs) =>
    match parseCompleteDate dcs, parseCompleteTime tcs with
    | some (_, _, d), some (h, mi, s) =>
      some (((d * 86400 + h * 3600 + mi * 60 + s : Nat) : Int))
    | _, _ => none

/-- Trailing-newline tolerance of the anchors: `$` also matches just before
a final newline. -/
def stripTrailingNewline (cs : List Char) : List Char :=
  match cs.getLast? with
  | some c => if c = '\n' then cs.dropLast else cs
  | none => cs

/-- Embedding of `int(isodate.parse_duration(s).total_seconds())`: the
period regex first, then — only when the raw string starts with `P` — the
alternative datetime format; `none` when the library raises. -/
def isodateParseDuration (s : String) : Option Int :=
  match parsePeriod (stripTrailingNewline s.toList) with
  | some v => some v
  | none =>
    match s.toList with
    | 'P' :: rest => parseAltDatetime (stripTrailingNewline rest)
    | _ => none

/-- Method `_parse_duration` (lines 216-229): parse, and on any failure
return 0. -/
def parse_duration (duration_str : String) : Int :=
  (isodateParseDuration duration_str).getD 0

/-! ## The collection loop of `fetch_channel_videos` (lines 136-214) -/

/-- Record assembly (lines 185-202). -/
def mkVideoRecord (item : SearchItem) (info : VideoInfo) (subs : Nat)
    (enabled : Bool) : VideoRecord :=
  { video_id := item.videoId
    title := item.title
    description := item.description
    published_at := item.publishedAt
    thumbnail_url := item.thumbnailUrl
    views := info.viewCount
    likes := info.likeCount
    comments_count := info.commentCount
    current_subscriber_count := subs
    duration_seconds := parse_duration info.duration
    comments_enabled := enabled
    category_id := info.categoryId
    category_name := categoryNameLookup info.categoryId
    tags := info.tags
    default_language := info.defaultLanguage
    default_audio_language := info.defaultAudioLanguage }

/-- Outcome of the inner `for` loop over one page: `Sum.inl` is an exception
escaping to the outer `try` (the accumulated list survives, the page loop
stops), `Sum.inr (acc, brk)` is normal completion, `brk` recording the
`break` at line 205 when the cap is reached. -/
def accOf : List VideoRecord ⊕ (List VideoRecord × Bool) → List VideoRecord
  | .inl a => a
  | .inr p => p.1

/-- Skip condition of lines 166-168:
`if target_category_id and video_category_id != target_category_id`.
`target` is `some t` exactly when a category filter is active — `str(...)`
never yields an empty string, so Python truthiness of `target_category_id`
coincides with the `some` test. -/
def skipByCategory : Option String → String → Bool
  | some t, catId => catId ≠ t
  | none, _ => false

/-- Inner `for item in response.get('items', [])` loop (lines 152-205).  An
exception from `videos().list` propagates (`Sum.inl`); the comment-probe
call has its own bare `except` turning failure into `False` (lines
175-183); an empty `stats_response` item list skips the video. -/
def processItems (env : ApiEnv) (target : Option String) (subs maxV : Nat) :
    List SearchItem → List VideoRecord → List VideoRecord ⊕ (List VideoRecord × Bool)
  | [], acc => .inr (acc, false)
  | item :: rest, acc =>
    match env.videosList item.videoId with
    | .error _ => .inl acc
    | .ok [] => processItems env target subs maxV rest acc
    | .ok (info :: _) =>
      if skipByCategory target info.categoryId then
        processItems env target subs maxV rest acc
      else
        let enabled :=
          match env.commentThreads item.videoId with
          | .ok _ => true
          | .error _ => false
        let acc2 := acc ++ [mkVideoRecord item info subs enabled]
        if maxV ≤ acc2.length then .inr (acc2, true)
        else processItems env target subs maxV rest acc2

/-- Outer `while len(video_details) < max_videos` loop (lines 136-212),
walking the scripted page responses in order.  A raised exception — an
error search response or an `Sum.inl` from the item loop — is caught by the
outer `except` (line 211) and the records accumulated so far are returned.
The loop also ends when the continuation token is falsy (line 208) or the
scripted responses are exhausted. -/
def pageLoop (env : ApiEnv) (target : Option String) (subs maxV : Nat) :
    List (Except String SearchPage) → List VideoRecord → List VideoRecord
  | [], acc => acc
  | resp :: rest, acc =>
    if acc.length < maxV then
      match resp with
      | .error _ => acc
      | .ok page =>
        match processItems env target subs maxV page.items acc with
        | .inl partialAcc => partialAcc
        | .inr (acc2, _) =>
          if tokenFalsy page.nextPageToken then acc2
          else pageLoop env target subs maxV rest acc2
    else acc

/-- Method `fetch_channel_videos` (lines 87-214) against a mocked API.  The
date window only parameterizes the upstream query (lines 106-114, 145-146)
and is absorbed into the scripted responses.  The subscriber count is
fetched once with default 0 on failure (lines 123-131); the result models
the data frame built from `video_details` (line 214). -/
def fetch_channel_videos (env : ApiEnv) (channel_id : String)
    (max_videos : Nat) (category : Option String) : List VideoRecord :=
  let target :=
    if pyTruthyOptStr category then some (pyStrOfOptNat (categoryLookup (category.getD "")))
    else none
  let subs :=
    match env.channelStats channel_id with
    | .ok n => n
    | .error _ => 0
  pageLoop env target subs max_videos env.searchResponses []

/-! ## Channel resolver and per-video category lookup -/

/-- Item of a channel search response as read by `get_channel_id`
(line 58: `items[0]['id']['channelId']`). -/
structure ChannelSearchItem where
  channelId : String
deriving Repr, DecidableEq

/-- Method `get_channel_id` (lines 38-62): one search call; empty item list
yields `None`, a raised exception is caught and yields `None`, otherwise the
first item's channel id is returned. -/
def get_channel_id (resp : Except String (List ChannelSearchItem)) : Option String :=
  match resp with
  | .error _ => none
  | .ok [] => none
  | .ok (item :: _) => some item.channelId

/-- Method `get_video_category` (lines 64-85): same shape, reading
`items[0]['snippet']['categoryId']`. -/
def get_video_category (resp : Except String (List VideoInfo)) : Option String :=
  match resp with
  | .error _ => none
  | .ok [] => none
  | .ok (info :: _) => some info.categoryId

/-! ## Category directory and channel search (no exception handling) -/

/-- Item of a `videoCategories().list` response (lines 263-264). -/
structure GuideCategory where
  id : String
  title : String
deriving Repr, DecidableEq

/-- Method `get_guide_categories` (lines 245-266).  There is no `try` around
`request.execute()`: a raised exception propagates to the caller, which the
`Except`-valued result records.  On success the items become an id → title
association (insertion order; ids are unique in the API response). -/
def get_guide_categories (resp : Except String (List GuideCategory)) :
    Except String (List (String × String)) :=
  match resp with
  | .error e => .error e
  | .ok items => .ok (items.map (fun c => (c.id, c.title)))

/-- Item of the channel search response read by
`search_channels_by_category` (lines 290-295). -/
structure ChannelSnippetItem where
  channelId : String
  title : String
  description : String
deriving Repr, DecidableEq

/-- Summary dictionary built by `search_channels_by_category`. -/
structure ChannelListing where
  channel_id : String
  channel_title : String
  description : String
deriving Repr, DecidableEq

/-- Method `search_channels_by_category` (lines 268-297).  As with the guide
categories there is no `try`: an exception from the single search call
propagates to the caller. -/
def search_channels_by_category (resp : Except String (List ChannelSnippetItem)) :
    Except String (List ChannelListing) :=
  match resp with
  | .error e => .error e
  | .ok items => .ok (items.map (fun i => ⟨i.channelId, i.title, i.description⟩))

/-! ## Channel sampler (`get_top_channels_by_category`, lines 300-372) -/

/-- Item of one sampler search page (line 332 reads
`item['snippet']['channelId']`). -/
structure ChannelPageItem where
  channelId : String
deriving Repr, DecidableEq

/-- One page of the sampler's channel search (lines 321-329 and 348). -/
structure ChannelSearchPage where
  items : List ChannelPageItem
  nextPageToken : Option String
deriving Repr, DecidableEq

/-- Item of the batched `channels().list` response (lines 339-346). -/
structure ChannelDetail where
  id : String
  title : String
  subscriberCount : Nat
  videoCount : Nat
  viewCount : Nat
deriving Repr, DecidableEq

/-- Mocked upstream API for the sampler: the scripted page responses of the
channel search, and the batched statistics call keyed by the id list it is
invoked with. -/
structure SamplerEnv where
  searchResponses : List (Except String ChannelSearchPage)
  channelsList : List String → Except String (List ChannelDetail)

/-- Channel dictionary appended at lines 340-346. -/
structure Channel where
  channel_id : String
  title : String
  subscriber_count : Nat
  video_count : Nat
  view_count : Nat
deriving Repr, DecidableEq, Inhabited

/-- Accumulation loop `while len(channels) < sample_size * 2` (lines
319-354).  Both API calls of an iteration sit in one `try`; an error from
either breaks the loop with the channels collected so far.  The loop also
ends on a falsy continuation token or when the scripted responses run out. -/
def channelLoop (env : SamplerEnv) (sample_size : Nat) :
    List (Except String ChannelSearchPage) → List Channel → List Channel
  | [], acc => acc
  | resp :: rest, acc =>
    if acc.length < sample_size * 2 then
      match resp with
      | .error _ => acc
      | .ok page =>
        match env.channelsList (page.items.map (fun i => i.channelId)) with
        | .error _ => acc
        | .ok details =>
          let acc2 := acc ++ details.map
            (fun c => ⟨c.id, c.title, c.subscriberCount, c.videoCount, c.viewCount⟩)
          if tokenFalsy page.nextPageToken then acc2
          else channelLoop env sample_size rest acc2
    else acc

/-- Ordering of `channels.sort(key=lambda x: x['subscriber_count'],
reverse=True)` (line 357): descending subscriber count.  Python's sort is
stable, so it computes the same list as a stable insertion sort under this
relation. -/
def subsDesc (a b : Channel) : Prop := b.subscriber_count ≤ a.subscriber_count

instance : DecidableRel subsDesc :=
  fun a b => Nat.decLe b.subscriber_count a.subscriber_count

/-- Sort of line 357. -/
def sortBySubscribersDesc (l : List Channel) : List Channel :=
  l.insertionSort subsDesc

/-- Value of `np.clip(d, 0, len-1)` followed by `.astype(int)` for one
drawn value, as a function of the (truncated) draw: clipping to the integer
bounds commutes with truncation toward zero, so the composite acts on the
truncated draw. -/
def clipIdx (len : Nat) (d : Int) : Nat :=
  (max 0 (min d ((len : Int) - 1))).toNat

/-- Index pipeline of lines 364-369: clip each draw into range,
`np.unique` (sort ascending and drop duplicates), then `sorted(indices)`
(a second, identity sort kept for fidelity). -/
def sampleIndices (len : Nat) (draws : List Int) : List Nat :=
  let clipped := draws.map (clipIdx len)
  let uniq := (clipped.insertionSort (· ≤ ·)).dedup
  uniq.insertionSort (· ≤ ·)

/-- Sampling stage of lines 356-372, applied to the accumulated candidate
list: sort by subscriber count descending; when the candidates exceed the
sample size, select the candidates at the drawn indices and truncate to the
sample size, otherwise return the sorted candidates.  `draws` are the
`np.random.normal` draws, truncated toward zero. -/
def sampleChannels (channels : List Channel) (sample_size : Nat)
    (draws : List Int) : List Channel :=
  let sorted := sortBySubscribersDesc channels
  if sample_size < sorted.length then
    let idxs := sampleIndices sorted.length draws
    (idxs.map (fun i => sorted.getD i default)).take sample_size
  else sorted

/-- Function `get_top_channels_by_category` (lines 300-372) against a
mocked API: accumulate candidates, then sort and sample. -/
def get_top_channels_by_category (env : SamplerEnv) (sample_size : Nat)
    (draws : List Int) : List Channel :=
  sampleChannels (channelLoop env sample_size env.searchResponses []) sample_size draws

/-! ## Concrete environments used to exercise the definitions -/

/-- Search item with id `v<i>` and fixed snippet fields. -/
def numberedItem (i : Nat) : SearchItem :=
  ⟨"v" ++ toString i, "title", "desc", "2024-01-01T00:00:00Z", "http://thumb"⟩

/-- Detail response carried by every video in the gaming scenarios. -/
def gamingInfo : VideoInfo := ⟨"20", "PT1M30S", 5, 2, 1, [], "en", "en"⟩

/-- Detail response with the music category id. -/
def musicInfo : VideoInfo := ⟨"10", "PT1M30S", 7, 3, 2, [], "en", "en"⟩

/-- Mock API scripting three search pages of 50, 50 and 10 videos; every
detail and comment call succeeds. -/
def envThreePages : ApiEnv :=
  { searchResponses :=
      [.ok ⟨(List.range 50).map numberedItem, some "page2"⟩,
       .ok ⟨(List.range 50).map (fun i => numberedItem (50 + i)), some "page3"⟩,
       .ok ⟨(List.range 10).map (fun i => numberedItem (100 + i)), none⟩]
    videosList := fun _ => .ok [gamingInfo]
    commentThreads := fun _ => .ok ()
    channelStats := fun _ => .ok 1000 }

/-- Mock API with one page of two videos, one gaming and one music. -/
def envMixed : ApiEnv :=
  { searchResponses := [.ok ⟨[numberedItem 0, numberedItem 1], none⟩]
    videosList := fun v => if v = "v0" then .ok [gamingInfo] else .ok [musicInfo]
    commentThreads := fun _ => .ok ()
    channelStats := fun _ => .ok 500 }

/-- Mock API whose detail call always raises. -/
def envDetailError : ApiEnv :=
  { searchResponses := [.ok ⟨[numberedItem 0], none⟩]
    videosList := fun _ => .error "boom"
    commentThreads := fun _ => .ok ()
    channelStats := fun _ => .ok 0 }

/-- Sampler mock returning one page of two channels with statistics already
in descending subscriber order. -/
def senvSmall : SamplerEnv :=
  { searchResponses := [.ok ⟨[⟨"a"⟩, ⟨"b"⟩], none⟩]
    channelsList := fun _ => .ok [⟨"a", "ta", 50, 1, 9⟩, ⟨"b", "tb", 40, 1, 7⟩] }

/-- Three concrete channels for exercising the sampling branch. -/
def threeChannels : List Channel :=
  [⟨"x", "tx", 9, 1, 1⟩, ⟨"y", "ty", 5, 1, 1⟩, ⟨"z", "tz", 7, 1, 1⟩]

end GatherData

/-! # Theorems -/

namespace GatherData

/-- Invariant of the inner item loop: entered below the cap, it never
accumulates past the cap (the append at line 185 is followed by the
`break` at lines 204-205). -/
theorem processItems_length_le (env : ApiEnv) (target : Option String)
    (subs maxV : Nat) :
    ∀ (items : List SearchItem) (acc : List VideoRecord), acc.length < maxV →
      (accOf (processItems env target subs maxV items acc)).length ≤ maxV := by
  intro items
  induction items with
  | nil =>
    intro acc h
    simpa [processItems, accOf] using Nat.le_of_lt h
  | cons item rest ih =>
    intro acc h
    simp only [processItems]
    cases hv : env.videosList item.videoId with
    | error e => simpa [accOf] using Nat.le_of_lt h
    | ok infos =>
      cases infos with
      | nil => exact ih acc h
      | cons info tail =>
        by_cases hs : skipByCategory target info.categoryId
        · simpa [hs] using ih acc h
        · simp only [hs, Bool.false_eq_true, if_false]
          set acc2 := acc ++ [mkVideoRecord item info subs
            (match env.commentThreads item.videoId with
             | .ok _ => true
             | .error _ => false)] with hacc2
          have hlen2 : acc2.length = acc.length + 1 := by
            simp [hacc2]
          by_cases hm : maxV ≤ acc2.length
          · simp only [hm, if_true, accOf]
            omega
          · simp only [hm, if_false]
            exact ih acc2 (by omega)

/-- Invariant of the page loop: it never accumulates past the cap
(the `while` guard at line 137 plus the inner invariant). -/
theorem pageLoop_length_le (env : ApiEnv) (target : Option String)
    (subs maxV : Nat) :
    ∀ (pages : List (Except String SearchPage)) (acc : List VideoRecord),
      acc.length ≤ maxV →
      (pageLoop env target subs maxV pages acc).length ≤ maxV := by
  intro pages
  induction pages with
  | nil => intro acc h; simpa [pageLoop] using h
  | cons resp rest ih =>
    intro acc h
    simp only [pageLoop]
    by_cases hlt : acc.length < maxV
    · simp only [hlt, if_true]
      cases resp with
      | error e => exact h
      | ok page =>
        have hp := processItems_length_le env target subs maxV page.items acc hlt
        dsimp only
        cases hpi : processItems env target subs maxV page.items acc with
        | inl a =>
          rw [hpi] at hp
          simpa [accOf] using hp
        | inr p =>
          rw [hpi] at hp
          obtain ⟨acc2, b⟩ := p
          simp only [accOf] at hp
          by_cases ht : tokenFalsy page.nextPageToken
          · simpa [ht] using hp
          · simpa [ht] using ih acc2 hp
    · simpa [hlt] using h

/-- C1: for every requested maximum `max_videos` and every sequence of API
page responses, `fetch_channel_videos` returns at most `max_videos` video
records — the page loop only continues while the accumulated count is below
the maximum, and appending stops as soon as the count reaches it. -/
theorem fetch_channel_videos_length_le (env : ApiEnv) (channel_id : String)
    (max_videos : Nat) (category : Option String) :
    (fetch_channel_videos env channel_id max_videos category).length ≤ max_videos := by
  unfold fetch_channel_videos
  exact pageLoop_length_le env _ _ max_videos env.searchResponses [] (Nat.zero_le _)

/-- C2 counterexample: with three mocked pages of 50, 50 and 10 videos, no
category filter and `max_videos = 120`, the collector does not return 120
records — only 110 videos exist across the pages. -/
theorem fetch_three_pages_not_120 :
    (fetch_channel_videos envThreePages "UCchan" 120 none).length ≠ 120 := by
  decide

/-- C2 amended: with three mocked pages of 50, 50 and 10 videos, no category
filter and `max_videos = 120`, the collector returns exactly 110 records,
one per video, spanning all three pages in order. -/
theorem fetch_three_pages_returns_110 :
    (fetch_channel_videos envThreePages "UCchan" 120 none).length = 110 ∧
    (fetch_channel_videos envThreePages "UCchan" 120 none).map
        (fun r => r.video_id)
      = (List.range 110).map (fun i => "v" ++ toString i) := by
  exact ⟨by decide, by decide⟩

/-- Invariant of the inner item loop under an active category filter: every
record it adds carries the target category id, because non-matching videos
are skipped before assembly (lines 166-168). -/
theorem processItems_category_eq (env : ApiEnv) (t : String) (subs maxV : Nat) :
    ∀ (items : List SearchItem) (acc : List VideoRecord),
      (∀ r ∈ acc, r.category_id = t) →
      ∀ r ∈ accOf (processItems env (some t) subs maxV items acc),
        r.category_id = t := by
  intro items
  induction items with
  | nil =>
    intro acc hacc
    simpa [processItems, accOf] using hacc
  | cons item rest ih =>
    intro acc hacc
    simp only [processItems]
    cases hv : env.videosList item.videoId with
    | error e => simpa [accOf] using hacc
    | ok infos =>
      cases infos with
      | nil => exact ih acc hacc
      | cons info tail =>
        by_cases hs : skipByCategory (some t) info.categoryId
        · simpa [hs] using ih acc hacc
        · have hcat : info.categoryId = t := by
            simpa [skipByCategory] using hs
          simp only [hs, Bool.false_eq_true, if_false]
          set acc2 := acc ++ [mkVideoRecord item info subs
            (match env.commentThreads item.videoId with
             | .ok _ => true
             | .error _ => false)] with hdef
          have hacc2 : ∀ r ∈ acc2, r.category_id = t := by
            intro r hr
            rw [hdef] at hr
            rcases List.mem_append.mp hr with h1 | h1
            · exact hacc r h1
            · rcases List.mem_singleton.mp h1 with rfl
              simpa [mkVideoRecord] using hcat
          by_cases hm : maxV ≤ acc2.length
          · simp only [hm, if_true, accOf]
            exact hacc2
          · simp only [hm, if_false]
            exact ih acc2 hacc2

/-- Invariant of the page loop under an active category filter. -/
theorem pageLoop_category_eq (env : ApiEnv) (t : String) (subs maxV : Nat) :
    ∀ (pages : List (Except String SearchPage)) (acc : List VideoRecord),
      (∀ r ∈ acc, r.category_id = t) →
      ∀ r ∈ pageLoop env (some t) subs maxV pages acc, r.category_id = t := by
  intro pages
  induction pages with
  | nil =>
    intro acc hacc
    simpa [pageLoop] using hacc
  | cons resp rest ih =>
    intro acc hacc
    simp only [pageLoop]
    by_cases hlt : acc.length < maxV
    · simp only [hlt, if_true]
      cases resp with
      | error e => exact hacc
      | ok page =>
        have hp := processItems_category_eq env t subs maxV page.items acc hacc
        dsimp only
        cases hpi : processItems env (some t) subs maxV page.items acc with
        | inl a =>
          rw [hpi] at hp
          simpa [accOf] using hp
        | inr p =>
          rw [hpi] at hp
          obtain ⟨acc2, b⟩ := p
          simp only [accOf] at hp
          by_cases ht : tokenFalsy page.nextPageToken
          · simpa [ht] using hp
          · simpa [ht] using ih acc2 hp
    · simpa [hlt] using hacc

/-- C3: whenever a category filter with a truthy name is supplied, every
record returned by `fetch_channel_videos` carries exactly the category id
resolved from the hardcoded table (the `str` of the table lookup); videos
with a different category id are skipped before a record is assembled. -/
theorem fetch_channel_videos_category_filter (env : ApiEnv)
    (channel_id : String) (max_videos : Nat) (c : String)
    (hc : c.isEmpty = false) :
    ∀ r ∈ fetch_channel_videos env channel_id max_videos (some c),
      r.category_id = pyStrOfOptNat (categoryLookup c) := by
  unfold fetch_channel_videos
  simp only [pyTruthyOptStr, hc, Bool.not_false, if_true, Option.getD_some]
  exact pageLoop_category_eq env _ _ max_videos env.searchResponses []
    (by intro r hr; simp at hr)

/-- Witness for C3 at a concrete mock: filtering for "gaming" (table id 20)
over a page holding one gaming and one music video keeps exactly the gaming
record, whose category id is "20". -/
theorem fetch_channel_videos_category_filter_witness :
    "gaming".isEmpty = false ∧
    (fetch_channel_videos envMixed "UCmix" 5 (some "gaming")).length = 1 ∧
    ∀ r ∈ fetch_channel_videos envMixed "UCmix" 5 (some "gaming"),
      r.category_id = pyStrOfOptNat (categoryLookup "gaming") :=
  ⟨by decide, by decide,
   fetch_channel_videos_category_filter envMixed "UCmix" 5 "gaming" (by decide)⟩

/-- Item loop reads the environment only through the scripted detail and
comment calls, never through the page script. -/
theorem processItems_env_irrel (envA envB : ApiEnv) (target : Option String)
    (subs maxV : Nat) (hv : envA.videosList = envB.videosList)
    (hct : envA.commentThreads = envB.commentThreads) :
    ∀ (items : List SearchItem) (acc : List VideoRecord),
      processItems envA target subs maxV items acc
        = processItems envB target subs maxV items acc := by
  intro items
  induction items with
  | nil => intro acc; rfl
  | cons item rest ih =>
    intro acc
    simp only [processItems, hv, hct]
    cases hvv : envB.videosList item.videoId with
    | error e => rfl
    | ok infos =>
      cases infos with
      | nil => exact ih acc
      | cons info tail =>
        by_cases hs : skipByCategory target info.categoryId
        · simpa [hs] using ih acc
        · simp only [hs, Bool.false_eq_true, if_false]
          split
          · rfl
          · exact ih _

/-- Page loop reads the environment only through the secondary calls; the
pages it walks are the explicit list argument. -/
theorem pageLoop_env_irrel (envA envB : ApiEnv) (target : Option String)
    (subs maxV : Nat) (hv : envA.videosList = envB.videosList)
    (hct : envA.commentThreads = envB.commentThreads) :
    ∀ (pages : List (Except String SearchPage)) (acc : List VideoRecord),
      pageLoop envA target subs maxV pages acc
        = pageLoop envB target subs maxV pages acc := by
  intro pages
  induction pages with
  | nil => intro acc; rfl
  | cons resp rest ih =>
    intro acc
    simp only [pageLoop]
    by_cases hlt : acc.length < maxV
    · simp only [hlt, if_true]
      cases resp with
      | error e => rfl
      | ok page =>
        dsimp only
        rw [processItems_env_irrel envA envB target subs maxV hv hct]
        cases hpi : processItems envB target subs maxV page.items acc with
        | inl a => rfl
        | inr p =>
          obtain ⟨acc2, b⟩ := p
          by_cases ht : tokenFalsy page.nextPageToken
          · simp [ht]
          · simpa [ht] using ih acc2
    · simp [hlt]

/-- Page loop with an error response: everything scripted from the error on
is never consulted — the run produces exactly what the pages before the
error produce.  Stepping stone for C5. -/
theorem pageLoop_error_append (env : ApiEnv) (target : Option String)
    (subs maxV : Nat) (e : String) (p2 : List (Except String SearchPage)) :
    ∀ (p1 : List (Except String SearchPage)) (acc : List VideoRecord),
      pageLoop env target subs maxV (p1 ++ Except.error e :: p2) acc
        = pageLoop env target subs maxV p1 acc := by
  intro p1
  induction p1 with
  | nil =>
    intro acc
    simp [pageLoop]
  | cons resp rest ih =>
    intro acc
    simp only [List.cons_append, pageLoop]
    by_cases hlt : acc.length < maxV
    · simp only [hlt, if_true]
      cases resp with
      | error e2 => rfl
      | ok page =>
        dsimp only
        cases hpi : processItems env target subs maxV page.items acc with
        | inl a => rfl
        | inr p =>
          obtain ⟨acc2, b⟩ := p
          by_cases ht : tokenFalsy page.nextPageToken
          · simp [ht]
          · simpa [ht] using ih acc2
    · simp [hlt]

/-- C5: an error raised inside the page loop never propagates — the search
call failing on any page returns exactly the records accumulated over the
earlier pages (later scripted pages are never consulted), and the detail
call failing on any item surfaces as `Sum.inl` carrying exactly the records
accumulated before that item, which the outer handler then returns. -/
theorem fetch_channel_videos_error_partial :
    (∀ (env : ApiEnv) (channel_id : String) (max_videos : Nat)
       (category : Option String) (e : String)
       (p1 p2 : List (Except String SearchPage)),
       fetch_channel_videos
           { env with searchResponses := p1 ++ Except.error e :: p2 }
           channel_id max_videos category
         = fetch_channel_videos { env with searchResponses := p1 }
             channel_id max_videos category) ∧
    (∀ (env : ApiEnv) (target : Option String) (subs maxV : Nat)
       (item : SearchItem) (rest : List SearchItem) (acc : List VideoRecord)
       (e : String),
       env.videosList item.videoId = Except.error e →
       processItems env target subs maxV (item :: rest) acc = Sum.inl acc) := by
  constructor
  · intro env channel_id max_videos category e p1 p2
    unfold fetch_channel_videos
    dsimp only
    rw [pageLoop_env_irrel { env with searchResponses := p1 ++ Except.error e :: p2 }
      { env with searchResponses := p1 } _ _ _ rfl rfl]
    exact pageLoop_error_append _ _ _ _ e p2 p1 []
  · intro env target subs maxV item rest acc e hv
    simp [processItems, hv]

/-- Witness for C5: a concrete mock whose detail call raises returns the
empty partial result instead of an error. -/
theorem fetch_channel_videos_error_partial_witness :
    processItems envDetailError none 0 5 [numberedItem 0] [] = Sum.inl [] :=
  fetch_channel_videos_error_partial.2 envDetailError none 0 5
    (numberedItem 0) [] [] "boom" rfl

/-- Evaluation of the embedded library call across its grammar: fractional
components truncate after the arithmetic, a leading sign negates before the
toward-zero truncation, weeks combine with days, years and months parse but
contribute nothing to `total_seconds`, and the alternative datetime format
(extended and basic) draws its value from the day-of-month and time
fields. -/
theorem isodateParseDuration_grammar_cases :
    parse_duration "PT90.5S" = 90 ∧
    parse_duration "PT1,5M" = 90 ∧
    parse_duration "-PT30S" = -30 ∧
    parse_duration "-PT90.5S" = -90 ∧
    parse_duration "+P2W" = 1209600 ∧
    parse_duration "P1W1D" = 691200 ∧
    parse_duration "P1Y1D" = 86400 ∧
    parse_duration "P1M" = 0 ∧
    parse_duration "P0001-02-03T04:05:06" = 273906 ∧
    parse_duration "P00010203T040506" = 273906 ∧
    parse_duration "P0001-02-03T04:05:06.5Z" = 273906 ∧
    parse_duration "PT1.9999999S" = 2 := by
  refine ⟨?_, ?_, ?_, ?_, ?_, ?_, ?_, ?_, ?_, ?_, ?_, ?_⟩ <;> decide

/-- C7: `get_channel_id` returns `none` when the call raises and when the
response has zero items, and the first item's channel id otherwise; being a
total function into `Option`, it never raises to the caller. -/
theorem get_channel_id_spec :
    (∀ e, get_channel_id (Except.error e) = none) ∧
    get_channel_id (Except.ok []) = none ∧
    (∀ (item : ChannelSearchItem) (rest : List ChannelSearchItem),
      get_channel_id (Except.ok (item :: rest)) = some item.channelId) :=
  ⟨fun _ => rfl, rfl, fun _ _ => rfl⟩

/-- C4 counterexample: a raised transport error is not caught inside
`get_guide_categories` or `search_channels_by_category` — at the concrete
error "quota exceeded" both hand the caller the error itself rather than an
absence value, a partial result or a default. -/
theorem guide_and_search_errors_propagate :
    get_guide_categories (Except.error "quota exceeded")
        = Except.error "quota exceeded" ∧
    (get_guide_categories (Except.error "quota exceeded")).isOk = false ∧
    search_channels_by_category (Except.error "quota exceeded")
        = Except.error "quota exceeded" ∧
    (search_channels_by_category (Except.error "quota exceeded")).isOk = false :=
  ⟨rfl, rfl, rfl, rfl⟩

/-- C4 amended: the resolver, the per-video category lookup and the two
collection loops convert raised errors into absence values or early
termination with partial results, but `get_guide_categories` and
`search_channels_by_category` propagate every raised error to the caller. -/
theorem error_handling_per_operation :
    (∀ e, get_channel_id (Except.error e) = none) ∧
    (∀ e, get_video_category (Except.error e) = none) ∧
    (∀ (env : SamplerEnv) (n : Nat) (e : String)
       (rest : List (Except String ChannelSearchPage)),
       channelLoop env n (Except.error e :: rest) [] = []) ∧
    (∀ e, get_guide_categories (Except.error e) = Except.error e) ∧
    (∀ e, search_channels_by_category (Except.error e) = Except.error e) := by
  refine ⟨fun _ => rfl, fun _ => rfl, ?_, fun _ => rfl, fun _ => rfl⟩
  intro env n e rest
  simp [channelLoop]

/-- C8: when the accumulated candidate list does not exceed the requested
sample size, `get_top_channels_by_category` returns all candidates
unchanged — the sampling branch is never entered and the subscriber sort
fixes the already-sorted candidates. -/
theorem get_top_channels_no_sampling (env : SamplerEnv) (sample_size : Nat)
    (draws : List Int)
    (h1 : (channelLoop env sample_size env.searchResponses []).length ≤ sample_size)
    (h2 : List.Sorted subsDesc (channelLoop env sample_size env.searchResponses [])) :
    get_top_channels_by_category env sample_size draws
      = channelLoop env sample_size env.searchResponses [] := by
  unfold get_top_channels_by_category sampleChannels sortBySubscribersDesc
  dsimp only
  rw [h2.insertionSort_eq]
  rw [if_neg (by omega)]

/-- Witness for C8 at a concrete mock: two candidates against a requested
sample of 1000 come back exactly as accumulated. -/
theorem get_top_channels_no_sampling_witness :
    (channelLoop senvSmall 1000 senvSmall.searchResponses []).length ≤ 1000 ∧
    List.Sorted subsDesc (channelLoop senvSmall 1000 senvSmall.searchResponses []) ∧
    get_top_channels_by_category senvSmall 1000 []
      = channelLoop senvSmall 1000 senvSmall.searchResponses [] :=
  ⟨by decide, by decide,
   get_top_channels_no_sampling senvSmall 1000 [] (by decide) (by decide)⟩

/-- Clipping a truncated draw lands strictly inside a nonempty candidate
list (line 365). -/
theorem clipIdx_lt (len : Nat) (d : Int) (h : 0 < len) : clipIdx len d < len := by
  unfold clipIdx
  omega

/-- C9: when the candidates strictly exceed the sample size, the sampling
branch returns at most sample-size-many entries, each drawn from the
candidate list, and the index list it selects with is duplicate-free. -/
theorem sampleChannels_sampling_bounds (channels : List Channel)
    (sample_size : Nat) (draws : List Int)
    (h : sample_size < channels.length) :
    (sampleChannels channels sample_size draws).length ≤ sample_size ∧
    (∀ c ∈ sampleChannels channels sample_size draws, c ∈ channels) ∧
    (sampleIndices channels.length draws).Nodup := by
  have hsortlen : (sortBySubscribersDesc channels).length = channels.length :=
    List.length_insertionSort _ _
  have hbranch : sample_size < (sortBySubscribersDesc channels).length := by
    rw [hsortlen]; exact h
  refine ⟨?_, ?_, ?_⟩
  · unfold sampleChannels
    dsimp only
    rw [if_pos hbranch]
    simp only [List.length_take]
    omega
  · intro c hc
    unfold sampleChannels at hc
    dsimp only at hc
    rw [if_pos hbranch] at hc
    have hc2 := List.mem_of_mem_take hc
    rcases List.mem_map.mp hc2 with ⟨i, hi, rfl⟩
    have hlen0 : 0 < (sortBySubscribersDesc channels).length := by omega
    have hilt : i < (sortBySubscribersDesc channels).length := by
      unfold sampleIndices at hi
      dsimp only at hi
      rw [List.mem_insertionSort, List.mem_dedup, List.mem_insertionSort] at hi
      rcases List.mem_map.mp hi with ⟨d, _, rfl⟩
      exact clipIdx_lt _ d hlen0
    rw [List.getD_eq_getElem _ _ hilt]
    exact (List.perm_insertionSort subsDesc channels).mem_iff.mp
      (List.getElem_mem hilt)
  · unfold sampleIndices
    dsimp only
    exact (List.perm_insertionSort _ _).nodup_iff.mpr (List.nodup_dedup _)

/-- Witness for C9 at a concrete input: three candidates, sample size two,
draws 0, 5 and -1 (clipped to 0 and 2). -/
theorem sampleChannels_sampling_bounds_witness :
    2 < threeChannels.length ∧
    ((sampleChannels threeChannels 2 [0, 5, -1]).length ≤ 2 ∧
     (∀ c ∈ sampleChannels threeChannels 2 [0, 5, -1], c ∈ threeChannels) ∧
     (sampleIndices threeChannels.length [0, 5, -1]).Nodup) :=
  ⟨by decide, sampleChannels_sampling_bounds threeChannels 2 [0, 5, -1] (by decide)⟩

/-- Under the unresolvable filter id "None", every delivered video is
skipped, so the item loop leaves the accumulator untouched. -/
theorem processItems_none_filter (env : ApiEnv) (subs maxV : Nat)
    (henv : ∀ v infos, env.videosList v = Except.ok infos →
      ∀ i ∈ infos, i.categoryId ≠ "None") :
    ∀ (items : List SearchItem) (acc : List VideoRecord),
      accOf (processItems env (some "None") subs maxV items acc) = acc := by
  intro items
  induction items with
  | nil => intro acc; rfl
  | cons item rest ih =>
    intro acc
    simp only [processItems]
    cases hv : env.videosList item.videoId with
    | error e => rfl
    | ok infos =>
      cases infos with
      | nil => exact ih acc
      | cons info tail =>
        have hcat : info.categoryId ≠ "None" :=
          henv item.videoId (info :: tail) hv info (List.mem_cons_self info tail)
        have hs : skipByCategory (some "None") info.categoryId = true := by
          simpa [skipByCategory] using hcat
        simpa [hs] using ih acc

/-- Page-loop version: under the filter id "None" nothing is ever
accumulated. -/
theorem pageLoop_none_filter (env : ApiEnv) (subs maxV : Nat)
    (henv : ∀ v infos, env.videosList v = Except.ok infos →
      ∀ i ∈ infos, i.categoryId ≠ "None") :
    ∀ (pages : List (Except String SearchPage)) (acc : List VideoRecord),
      pageLoop env (some "None") subs maxV pages acc = acc := by
  intro pages
  induction pages with
  | nil => intro acc; rfl
  | cons resp rest ih =>
    intro acc
    simp only [pageLoop]
    by_cases hlt : acc.length < maxV
    · simp only [hlt, if_true]
      cases resp with
      | error e => rfl
      | ok page =>
        have hp := processItems_none_filter env subs maxV henv page.items acc
        dsimp only
        cases hpi : processItems env (some "None") subs maxV page.items acc with
        | inl a =>
          rw [hpi] at hp
          simpa [accOf] using hp
        | inr p =>
          rw [hpi] at hp
          obtain ⟨acc2, b⟩ := p
          simp only [accOf] at hp
          rw [hp]
          by_cases ht : tokenFalsy page.nextPageToken
          · simp [ht]
          · simpa [ht] using ih acc
    · simp [hlt]

/-- C10: a category name absent from the hardcoded table resolves to the
filter id "None"; when no delivered video carries that id (the API issues
numeric id strings), every video is skipped and the returned record set is
empty — the unknown filter silently yields no data instead of being ignored
or raising. -/
theorem fetch_channel_videos_unknown_category (env : ApiEnv)
    (channel_id : String) (max_videos : Nat) (c : String)
    (hc : c.isEmpty = false) (hl : categoryLookup c = none)
    (henv : ∀ v infos, env.videosList v = Except.ok infos →
      ∀ i ∈ infos, i.categoryId ≠ "None") :
    pyStrOfOptNat (categoryLookup c) = "None" ∧
    fetch_channel_videos env channel_id max_videos (some c) = [] := by
  refine ⟨by rw [hl]; rfl, ?_⟩
  unfold fetch_channel_videos
  simp only [pyTruthyOptStr, hc, Bool.not_false, if_true, Option.getD_some,
    hl, pyStrOfOptNat]
  exact pageLoop_none_filter env _ max_videos henv env.searchResponses []

/-- Witness for C10 at a concrete mock: "cooking" is not in the table, the
delivered videos carry ids "20" and "10", and the collector returns no
records. -/
theorem fetch_channel_videos_unknown_category_witness :
    "cooking".isEmpty = false ∧ categoryLookup "cooking" = none ∧
    (pyStrOfOptNat (categoryLookup "cooking") = "None" ∧
     fetch_channel_videos envMixed "UCmix" 5 (some "cooking") = []) := by
  refine ⟨by decide, by decide,
    fetch_channel_videos_unknown_category envMixed "UCmix" 5 "cooking"
      (by decide) (by decide) ?_⟩
  intro v infos h i hi
  dsimp [envMixed] at h
  by_cases hv : v = "v0"
  · rw [if_pos hv] at h
    injection h with h2
    subst h2
    rcases List.mem_singleton.mp hi with rfl
    decide
  · rw [if_neg hv] at h
    injection h with h2
    subst h2
    rcases List.mem_singleton.mp hi with rfl
    decide

end GatherData
